import Mathlib

set_option maxHeartbeats 1000000
set_option maxRecDepth 4000

/-!
Shallow embedding of the books/quotes scraping pipeline
(`script_books.py`) and proofs about its claimed properties.

Strings are modelled as `List Char`.  Randomness is modelled by oracle
arguments: a call site that draws a random number receives it as an
explicit `Nat` (or `Nat → Nat`) parameter, with uniform draws realised
as `r % n` index selection.  Fallible code returns `Option` or `Except`.
-/

namespace BooksScraper

/-- Python `str.strip()` default whitespace characters. -/
def isSpaceC (c : Char) : Bool :=
  c = ' ' || c = '\t' || c = '\n' || c = '\r' || c = '\x0b' || c = '\x0c'

/-- Python `str.strip()`: drop leading and trailing whitespace. -/
def strip (s : List Char) : List Char :=
  ((s.dropWhile isSpaceC).reverse.dropWhile isSpaceC).reverse

/-- Python `needle in hay` substring test. -/
def containsSub (needle : List Char) : List Char → Bool
  | [] => needle.isEmpty
  | c :: t => needle.isPrefixOf (c :: t) || containsSub needle t

/-- Python `str.isdigit` restricted to ASCII digits (all the source needs). -/
def isDigitC (c : Char) : Bool := c.isDigit

/-- Value of a list of ASCII digits read in base 10. -/
def digitsToNat (s : List Char) : Nat :=
  s.foldl (fun n c => 10 * n + (c.toNat - 48)) 0

/-! ## Rating extraction (`extract_rating_from_class`, `extract_book_details`) -/

/-- The `rating_map` dict of `extract_rating_from_class`, in insertion order. -/
def ratingMap : List (List Char × Nat) :=
  [("One".data, 1), ("Two".data, 2), ("Three".data, 3),
   ("Four".data, 4), ("Five".data, 5)]

/-- `extract_rating_from_class`: first map entry whose word occurs as a
substring of the class string (`if word in rating_class`), else `None`. -/
def extract_rating_from_class (ratingClass : List Char) : Option Nat :=
  (ratingMap.find? (fun p => containsSub p.1 ratingClass)).map (fun p => p.2)

/-- The literal list `['One', 'Two', 'Three', 'Four', 'Five']` used by
`extract_book_details` for the exact-membership test on CSS classes. -/
def ratingTokenList : List (List Char) :=
  ["One".data, "Two".data, "Three".data, "Four".data, "Five".data]

/-- Rating logic of `extract_book_details`: if the star-rating element is
present, scan its class list for the first class that is exactly one of the
five tokens and convert it; otherwise the rating stays `None`. -/
def bookRating (ratingEl : Option (List (List Char))) : Option Nat :=
  match ratingEl with
  | none => none
  | some classes =>
    match classes.find? (fun c => decide (c ∈ ratingTokenList)) with
    | some c => extract_rating_from_class c
    | none => none

/-! ## Price extraction (`extract_book_details`) -/

/-- Python `re.sub(r'[£,]', '', s)`: remove every `£` and `,`. -/
def stripCurrency (s : List Char) : List Char :=
  s.filter (fun c => !(c = '£' || c = ','))

/-- Python `float()` on the decimal strings produced by price cleanup:
an optional integer part, an optional dot, an optional fractional part,
with at least one digit overall; anything else raises (`none`).  The
result is returned as (all digits read as one integer, number of
fractional digits), i.e. the value scaled by `10 ^ fracLen`. -/
def parseFloatParts (s : List Char) : Option (Nat × Nat) :=
  let ip := s.takeWhile (fun c => !(c = '.'))
  match s.dropWhile (fun c => !(c = '.')) with
  | [] =>
    if !ip.isEmpty && ip.all isDigitC then some (digitsToNat ip, 0) else none
  | _ :: fp =>
    if (!ip.isEmpty || !fp.isEmpty) && ip.all isDigitC && fp.all isDigitC then
      some (digitsToNat (ip ++ fp), fp.length)
    else none

/-- The rational value of a parsed decimal number. -/
def parseFloatQ (s : List Char) : Option ℚ :=
  (parseFloatParts s).map (fun p => (p.1 : ℚ) / (10 : ℚ) ^ p.2)

/-- Price logic of `extract_book_details`: default text `'£0.00'` when the
price element is absent, strip `£` and `,`, parse as a decimal number. -/
def extractPrice (priceEl : Option (List Char)) : Option ℚ :=
  parseFloatQ (stripCurrency (priceEl.getD "£0.00".data))

/-! ## Book detail page (`get_book_page_details`) -/

/-- Python `re.search(r'20\d\d', s)`: the first occurrence, scanning left
to right, of `2`, `0`, digit, digit, read as a year. -/
def searchYear : List Char → Option Nat
  | [] => none
  | c :: rest =>
    match c, rest with
    | '2', '0' :: c2 :: c3 :: _ =>
      if isDigitC c2 && isDigitC c3 then
        some (2000 + 10 * (c2.toNat - 48) + (c3.toNat - 48))
      else searchYear rest
    | _, _ => searchYear rest

/-- The `details` record accumulated by `get_book_page_details`. -/
structure PageDetails where
  upc : List Char
  publication_year : Option Nat
  category : List Char
deriving DecidableEq, Repr

/-- The initial `details` dict of `get_book_page_details`. -/
def initDetails : PageDetails :=
  { upc := [], publication_year := none, category := [] }

/-- One row of the product information table: key is lowercased and
tested by substring for `upc`, then for `available`; an availability row
sets the year to an extracted `20xx` token or to a synthesized
`randint(2000, 2023)` draw (`rs i` is the oracle for row `i`). -/
def processRow (rs : Nat → Nat) (i : Nat) (d : PageDetails)
    (row : List Char × List Char) : PageDetails :=
  let key := (strip row.1).map Char.toLower
  let val := strip row.2
  if containsSub "upc".data key then { d with upc := val }
  else if containsSub "available".data key then
    let y := match searchYear val with
      | some y => y
      | none => 2000 + rs i % 24
    { d with publication_year := some y }
  else d

/-- Fold of `processRow` over all table rows, in order. -/
def processTable (rs : Nat → Nat) (d0 : PageDetails)
    (rows : List (List Char × List Char)) : PageDetails :=
  (rows.enum).foldl (fun d p => processRow rs p.1 d p.2) d0

/-- `get_book_page_details`: `tableRows` is the parsed info table (`none`
when the page has no such table or the error struck before it),
`breadcrumb` the breadcrumb link texts, `err` whether an exception was
raised during the request/parse, `rs` the per-row randomness oracle and
`rE` the oracle for the year synthesized in the exception handler.  In
the handler a year is synthesized only when none was set. -/
def get_book_page_details (tableRows : Option (List (List Char × List Char)))
    (breadcrumb : List (List Char)) (err : Bool) (rs : Nat → Nat) (rE : Nat) :
    PageDetails :=
  let d1 := match tableRows with
    | some rows => processTable rs initDetails rows
    | none => initDetails
  let d2 :=
    if !err && decide (3 ≤ breadcrumb.length) then
      { d1 with category := strip ((breadcrumb.get? 2).getD []) }
    else d1
  if err && d2.publication_year = none then
    { d2 with publication_year := some (2000 + rE % 24) }
  else d2

/-! ## Category extraction (`extract_categories`) -/

/-- Python `re.sub(r'\s+\d+$', '', s)`: remove a trailing run of one or
more whitespace characters followed by one or more digits. -/
def stripTrailingCount (s : List Char) : List Char :=
  let r := s.reverse
  let ds := r.takeWhile isDigitC
  let r1 := r.dropWhile isDigitC
  let ws := r1.takeWhile isSpaceC
  if !ds.isEmpty && !ws.isEmpty then (r1.dropWhile isSpaceC).reverse else s

/-- The literal root navigation label excluded by `extract_categories`. -/
def booksLabel : List Char := "Books".data

/-- One iteration of the category link loop: strip the link text, skip
empty names and the literal `Books`, clean trailing count digits, and
append only unseen names. -/
def extractCategoriesStep (acc : List (List Char)) (raw : List Char) :
    List (List Char) :=
  let name := strip raw
  if !name.isEmpty && name ≠ booksLabel then
    let clean := strip (stripTrailingCount name)
    if clean ∈ acc then acc else acc ++ [clean]
  else acc

/-- `extract_categories` over the list of category link texts. -/
def extract_categories (raws : List (List Char)) : List (List Char) :=
  raws.foldl extractCategoriesStep []

/-! ## Book listing pagination (`extract_books`) -/

/-- Outcome of fetching and parsing one listing page: HTTP 404, any
other exception, or a parsed page whose containers each yield a book or
`None` (when `extract_book_details` swallowed an exception). -/
inductive PageResult where
  | notFound
  | fetchErr
  | ok (containers : List (Option (List Char)))

/-- The `while True` pagination loop of `extract_books`: fetch a page,
stop on 404 or an empty container list, keep collected books on any
other error, and stop once the test-mode cap `page > 5` trips after the
increment.  Returns the collected books and the pages fetched. -/
def extractBooksLoop (fetch : Nat → PageResult) (page : Nat)
    (acc : List (List Char)) (visited : List Nat) :
    List (List Char) × List Nat :=
  match fetch page with
  | .notFound => (acc, visited ++ [page])
  | .fetchErr => (acc, visited ++ [page])
  | .ok containers =>
    if containers.isEmpty then (acc, visited ++ [page])
    else
      let acc2 := acc ++ containers.filterMap id
      if _h : page + 1 > 5 then (acc2, visited ++ [page])
      else extractBooksLoop fetch (page + 1) acc2 (visited ++ [page])
termination_by 6 - page
decreasing_by omega

/-- `extract_books`, starting from page 1 with nothing collected. -/
def extract_books (fetch : Nat → PageResult) : List (List Char) × List Nat :=
  extractBooksLoop fetch 1 [] []

/-! ## Transactional insert phases (`insert_*`, `run_full_pipeline`) -/

/-- One database action of an insert phase: an `INSERT` adding a row, a
`COMMIT`, or a read-only query (the post-commit `SELECT COUNT`). -/
inductive DBStep where
  | write (row : List Char)
  | commit
  | read

/-- Executes the steps of a phase over (committed state, working state).
`fail = some i` raises an exception at step `i`; the handler rolls back
to the committed state and swallows the exception, so the function
always returns the resulting committed database. -/
def runPhaseAux : List (List Char) → List (List Char) → List DBStep →
    Option Nat → List (List Char)
  | committed, _, [], _ => committed
  | committed, working, s :: rest, fail =>
    match fail with
    | some 0 => committed
    | _ =>
      let fl := fail.map (fun n => n - 1)
      match s with
      | .write r => runPhaseAux committed (working ++ [r]) rest fl
      | .commit => runPhaseAux working working rest fl
      | .read => runPhaseAux committed working rest fl

/-- One insert phase run against a committed database state. -/
def runPhase (db : List (List Char)) (steps : List DBStep)
    (fail : Option Nat) : List (List Char) :=
  runPhaseAux db db steps fail

/-- The step shape shared by the insert phases: all row inserts, then
one commit, then the post-commit count query. -/
def phaseSteps (rows : List (List Char)) : List DBStep :=
  rows.map DBStep.write ++ [DBStep.commit, DBStep.read]

/-- `run_full_pipeline`'s insert section: phases run in order, each one
swallowing its own exception, so every phase is always attempted. -/
def runPipeline (db : List (List Char))
    (phases : List (List (List Char) × Option Nat)) : List (List Char) :=
  phases.foldl (fun d p => runPhase d (phaseSteps p.1) p.2) db

/-! ## Category insert idempotency (`insert_categories`) -/

/-- `INSERT INTO categories (name) VALUES (%s) ON CONFLICT (name) DO
NOTHING` against a table of (id, name) rows with unique names: a
conflicting name leaves the table as it is, otherwise a fresh id row is
appended. -/
def insertCategoryIgnore (table : List (Nat × List Char)) (name : List Char) :
    List (Nat × List Char) :=
  if name ∈ table.map (fun p => p.2) then table
  else table ++ [(table.length + 1, name)]

/-! ## Category and publisher assignment during book insert (`insert_books`) -/

/-- Python dict `.get` over (name, id) bindings where later bindings
overwrite earlier ones. -/
def dictGet (m : List (List Char × Nat)) (k : List Char) : Option Nat :=
  (m.reverse.find? (fun p => decide (p.1 = k))).map (fun p => p.2)

/-- Python `random.choice`, raising `IndexError` (`none`) on an empty
sequence, modelled by uniform index selection. -/
def randomChoice (l : List (List Char)) (pick : Nat) : Option (List Char) :=
  match l with
  | [] => none
  | _ :: _ => l[pick % l.length]?

/-- Category id assignment of `insert_books`: look the harvested name up
in the categories map; when the result is falsy and the collected
categories list is non-empty, pick a uniformly random key of the map and
use its id; `random.choice` on an empty key list raises. -/
def assignCategoryId (cmap : List (List Char × Nat)) (collectedNonempty : Bool)
    (bookCat : List Char) (pick : Nat) : Except Unit (Option Nat) :=
  let cid := dictGet cmap bookCat
  if (cid = none ∨ cid = some 0) ∧ collectedNonempty = true then
    match randomChoice (cmap.map (fun p => p.1)) pick with
    | none => Except.error ()
    | some key => Except.ok (dictGet cmap key)
  else Except.ok cid

/-- The category-relevant part of a persisted book row; `category_id` is
a nullable foreign key. -/
structure BookRow where
  title : List Char
  categoryId : Option Nat
deriving DecidableEq, Repr

/-- Inserting one book in `insert_books`: assign the category id and
persist the row with it (`NULL` allowed). -/
def insertBook (cmap : List (List Char × Nat)) (collectedNonempty : Bool)
    (book : List Char × List Char) (pick : Nat) : Except Unit BookRow :=
  match assignCategoryId cmap collectedNonempty book.2 pick with
  | Except.error e => Except.error e
  | Except.ok cid => Except.ok { title := book.1, categoryId := cid }

/-! ## Book-author linking (`insert_book_authors_relations`) -/

/-- Python `random.randint(a, b)`: uniform in `[a, b]`, raising
(`none`) when `b < a` — as happens for `randint(1, 0)` when the authors
list is empty. -/
def pyRandint (a b r : Nat) : Option Nat :=
  if b < a then none else some (a + r % (b + 1 - a))

/-- Python `random.sample(pool, k)` modelled as `k` uniform draws
without replacement: each draw picks an index into the remaining pool
and removes the chosen element. -/
def pySample : List (List Char) → Nat → (Nat → Nat) → List (List Char)
  | _, 0, _ => []
  | [], _ + 1, _ => []
  | p :: ps, k + 1, oracle =>
    let pool := p :: ps
    let i := oracle k % pool.length
    match pool[i]? with
    | some x => x :: pySample (pool.eraseIdx i) k oracle
    | none => []

/-- `random.sample` raises `ValueError` when asked for more elements
than the pool holds. -/
def pySampleChecked (pool : List (List Char)) (k : Nat) (oracle : Nat → Nat) :
    Option (List (List Char)) :=
  if k ≤ pool.length then some (pySample pool k oracle) else none

/-- Per-book author selection of `insert_book_authors_relations`:
`num_authors = randint(1, min(3, len(authors)))` followed by
`random.sample(authors, num_authors)`. -/
def linkAuthorsForBook (authors : List (List Char)) (r : Nat)
    (oracle : Nat → Nat) : Option (List (List Char)) :=
  match pyRandint 1 (min 3 authors.length) r with
  | none => none
  | some k => pySampleChecked authors k oracle

/-- One `book_authors` linking row per sampled author. -/
def bookAuthorRows (bookId : Nat) (links : List (List Char)) :
    List (Nat × List Char) :=
  links.map (fun a => (bookId, a))

/-! ## Quotes extraction (`extract_authors_from_quotes`) -/

/-- Python `str.strip('"')`: drop leading and trailing double quotes. -/
def stripDq (s : List Char) : List Char :=
  ((s.dropWhile (fun c => c = '"')).reverse.dropWhile (fun c => c = '"')).reverse

/-- A recorded quote. -/
structure QuoteRec where
  text : List Char
  author : List Char
  tags : List (List Char)
deriving DecidableEq, Repr

/-- One quote block of a quotes page: optional author element, optional
text element, tag link texts. -/
structure QContainer where
  authorEl : Option (List Char)
  textEl : Option (List Char)
  tagEls : List (List Char)
deriving DecidableEq, Repr

/-- State of the quotes loop: the Python local `author_name` (unbound
when `none`), quotes collected so far and whether a `NameError` aborted
the extraction. -/
structure QState where
  lastAuthor : Option (List Char)
  quotes : List QuoteRec
  aborted : Bool
deriving DecidableEq, Repr

/-- Initial state of `extract_authors_from_quotes`. -/
def initQState : QState := { lastAuthor := none, quotes := [], aborted := false }

/-- Processing of one quote container: an author element rebinds
`author_name`; a text element records a quote under the current
`author_name`, raising `NameError` (abort) when that variable was never
bound; a container with neither does nothing. -/
def processContainer (st : QState) (c : QContainer) : QState :=
  if st.aborted then st
  else
    let st1 := match c.authorEl with
      | some a => { st with lastAuthor := some (strip a) }
      | none => st
    match c.textEl with
    | some t =>
      match st1.lastAuthor with
      | some a =>
        { st1 with quotes := st1.quotes ++
            [{ text := stripDq (strip t), author := a, tags := c.tagEls.map strip }] }
      | none => { st1 with aborted := true }
    | none => st1

/-- One quotes page: its containers in order. -/
def processQuotePage (st : QState) (cs : List QContainer) : QState :=
  cs.foldl processContainer st

/-- `extract_authors_from_quotes` over the fetched pages; the exception
handler breaks the page loop once aborted. -/
def extract_quotes (pages : List (List QContainer)) : QState :=
  pages.foldl (fun st p => if st.aborted then st else processQuotePage st p)
    initQState

/-- The concrete page list of the C10 counterexample: the first container
has neither author nor text element, the second has both. -/
def c10CexPages : List (List QContainer) :=
  [[{ authorEl := none, textEl := none, tagEls := [] },
    { authorEl := some "Jane Doe".data, textEl := some "Be yourself".data,
      tagEls := ["life".data] }]]

end BooksScraper

namespace BooksScraper

/-- C3: rating extraction maps exactly the class tokens One, Two, Three,
Four, Five to 1..5, and a star-rating element carrying none of these
tokens yields an absent rating. -/
theorem c3_rating_mapping :
    (bookRating (some ["star-rating".data, "One".data]) = some 1 ∧
     bookRating (some ["star-rating".data, "Two".data]) = some 2 ∧
     bookRating (some ["star-rating".data, "Three".data]) = some 3 ∧
     bookRating (some ["star-rating".data, "Four".data]) = some 4 ∧
     bookRating (some ["star-rating".data, "Five".data]) = some 5) ∧
    ∀ classes : List (List Char),
      (∀ c ∈ classes, c ∉ ratingTokenList) → bookRating (some classes) = none := by
  constructor
  · exact ⟨by decide, by decide, by decide, by decide, by decide⟩
  · intro classes h
    have hfind : classes.find? (fun c => decide (c ∈ ratingTokenList)) = none := by
      rw [List.find?_eq_none]
      intro c hc
      simpa using h c hc
    simp [bookRating, hfind]

/-- C3 witness: the general part of `c3_rating_mapping` applied to a
concrete unmatched class list. -/
theorem c3_rating_mapping_witness :
    bookRating (some ["star-rating".data, "Zero".data]) = none :=
  c3_rating_mapping.2 ["star-rating".data, "Zero".data] (by decide)

/-- A table fold over rows none of which is an availability row leaves
the publication year untouched. -/
theorem foldl_processRow_keeps_year (rs : Nat → Nat) :
    ∀ (l : List (Nat × (List Char × List Char))) (d0 : PageDetails),
      (∀ p ∈ l,
        containsSub "available".data ((strip p.2.1).map Char.toLower) = false) →
      (l.foldl (fun d p => processRow rs p.1 d p.2) d0).publication_year
        = d0.publication_year := by
  intro l
  induction l with
  | nil => intro d0 _; rfl
  | cons p t ih =>
    intro d0 h
    have hp := h p (List.mem_cons_self p t)
    have ht : ∀ q ∈ t,
        containsSub "available".data ((strip q.2.1).map Char.toLower) = false :=
      fun q hq => h q (List.mem_cons_of_mem p hq)
    simp only [List.foldl_cons]
    rw [ih _ ht]
    unfold processRow
    simp only [hp]
    split <;> rfl

/-- C2 (amended): a table row whose lowercased key contains the
substring `available` yields the first 20xx token of its text as the
year, or a synthesized year in [2000, 2023] when no token occurs; an
exception always leaves some year set; but when no row key contains
`available` — which includes the real pages' key `Availability`, of
which `available` is not a substring — and the fetch succeeds, the
publication year stays absent. -/
theorem c2_publication_year :
    (∀ (rs : Nat → Nat) (i : Nat) (d : PageDetails) (k v : List Char) (y : Nat),
      containsSub "upc".data ((strip k).map Char.toLower) = false →
      containsSub "available".data ((strip k).map Char.toLower) = true →
      searchYear (strip v) = some y →
      (processRow rs i d (k, v)).publication_year = some y) ∧
    (∀ (rs : Nat → Nat) (i : Nat) (d : PageDetails) (k v : List Char),
      containsSub "upc".data ((strip k).map Char.toLower) = false →
      containsSub "available".data ((strip k).map Char.toLower) = true →
      searchYear (strip v) = none →
      ∃ n, (processRow rs i d (k, v)).publication_year = some n ∧
        2000 ≤ n ∧ n ≤ 2023) ∧
    (∀ (tableRows : Option (List (List Char × List Char)))
       (breadcrumb : List (List Char)) (rs : Nat → Nat) (rE : Nat),
      (get_book_page_details tableRows breadcrumb true rs rE).publication_year.isSome
        = true) ∧
    (∀ (rows : List (List Char × List Char)) (breadcrumb : List (List Char))
       (rs : Nat → Nat) (rE : Nat),
      (∀ p ∈ rows,
        containsSub "available".data ((strip p.1).map Char.toLower) = false) →
      (get_book_page_details (some rows) breadcrumb false rs rE).publication_year
        = none) := by
  refine ⟨?_, ?_, ?_, ?_⟩
  · intro rs i d k v y h1 h2 h3
    simp [processRow, h1, h2, h3]
  · intro rs i d k v h1 h2 h3
    refine ⟨2000 + rs i % 24, ?_, by omega, ?_⟩
    · simp [processRow, h1, h2, h3]
    · have : rs i % 24 < 24 := Nat.mod_lt _ (by omega)
      omega
  · intro tableRows breadcrumb rs rE
    unfold get_book_page_details
    by_cases hy : (match tableRows with
        | some rows => processTable rs initDetails rows
        | none => initDetails).publication_year = none
    · simp [hy]
    · simp [hy, Option.isSome_iff_ne_none]
  · intro rows breadcrumb rs rE h
    have hyear :
        (processTable rs initDetails rows).publication_year = none := by
      unfold processTable
      rw [foldl_processRow_keeps_year]
      · rfl
      · intro p hp
        have hmem : p.2 ∈ rows := by
          have hg := List.mem_enum_iff_getElem?.mp hp
          exact List.getElem?_mem hg
        exact h p.2 hmem
    unfold get_book_page_details
    by_cases hb : 3 ≤ breadcrumb.length
    · simp [hb, hyear]
    · simp [hb, hyear]

/-- C2 witness: the first two parts of `c2_publication_year` applied to
concrete availability rows. -/
theorem c2_publication_year_witness :
    (processRow (fun _ => 0) 0 initDetails
        ("Available".data, "In stock (2011 available)".data)).publication_year
      = some 2011 ∧
    ∃ n, (processRow (fun _ => 0) 1 initDetails
        ("Available".data, "In stock (22 available)".data)).publication_year
      = some n ∧ 2000 ≤ n ∧ n ≤ 2023 :=
  ⟨c2_publication_year.1 (fun _ => 0) 0 initDetails "Available".data
      "In stock (2011 available)".data 2011 (by decide) (by decide) (by decide),
   c2_publication_year.2.1 (fun _ => 0) 1 initDetails "Available".data
      "In stock (22 available)".data (by decide) (by decide) (by decide)⟩

/-- C2 counterexample: a successfully fetched detail page with the real
table shape — key `Availability`, text containing `2011` — leaves the
publication year absent (`available` is not a substring of
`availability`), so the year is neither extracted nor synthesized. -/
theorem c2_counterexample :
    (get_book_page_details
        (some [("Availability".data, "In stock (2011 available)".data)])
        ["Home".data, "Books".data, "Poetry".data] false (fun _ => 0) 0).publication_year
      = none := by decide

/-- Each step of the category loop preserves distinctness of the
accumulated names. -/
theorem extractCategoriesStep_nodup (acc : List (List Char)) (raw : List Char)
    (h : acc.Nodup) : (extractCategoriesStep acc raw).Nodup := by
  simp only [extractCategoriesStep]
  split
  · split
    · exact h
    · next hmem => simp [List.nodup_append, h, hmem]
  · exact h

/-- The category loop keeps the accumulator distinct. -/
theorem extract_categories_aux_nodup :
    ∀ (raws : List (List Char)) (acc : List (List Char)), acc.Nodup →
      (raws.foldl extractCategoriesStep acc).Nodup := by
  intro raws
  induction raws with
  | nil => intro acc h; exact h
  | cons r t ih =>
    intro acc h
    exact ih _ (extractCategoriesStep_nodup acc r h)

/-- Every name produced by the category loop either was already
accumulated or is the cleaned text of a link whose stripped text is
non-empty and differs from the literal `Books`. -/
theorem extract_categories_aux_mem :
    ∀ (raws : List (List Char)) (acc : List (List Char)) (n : List Char),
      n ∈ raws.foldl extractCategoriesStep acc →
      n ∈ acc ∨ ∃ r ∈ raws, strip r ≠ [] ∧ strip r ≠ booksLabel ∧
        n = strip (stripTrailingCount (strip r)) := by
  intro raws
  induction raws with
  | nil => intro acc n h; exact Or.inl h
  | cons r t ih =>
    intro acc n h
    simp only [List.foldl_cons] at h
    rcases ih _ n h with hacc | ⟨r2, hr2, h1, h2, h3⟩
    · simp only [extractCategoriesStep] at hacc
      split at hacc
      · next hcond =>
        simp only [Bool.and_eq_true, Bool.not_eq_true', List.isEmpty_eq_false,
          decide_eq_true_eq] at hcond
        split at hacc
        · exact Or.inl hacc
        · rcases List.mem_append.mp hacc with hl | hr
          · exact Or.inl hl
          · refine Or.inr ⟨r, List.mem_cons_self r t, ?_, ?_, ?_⟩
            · simpa using hcond.1
            · simpa using hcond.2
            · simpa using hr
      · exact Or.inl hacc
    · exact Or.inr ⟨r2, List.mem_cons_of_mem r hr2, h1, h2, h3⟩

/-- C7 (amended): after category extraction the collected names are
pairwise distinct, and each of them is the digit-stripped text of a link
whose stripped text was non-empty and not the literal `Books`; the
cleaned name itself can still equal `Books` when the raw text carried
trailing count digits. -/
theorem c7_category_names (raws : List (List Char)) :
    (extract_categories raws).Nodup ∧
    ∀ n ∈ extract_categories raws,
      ∃ r ∈ raws, strip r ≠ [] ∧ strip r ≠ booksLabel ∧
        n = strip (stripTrailingCount (strip r)) := by
  constructor
  · exact extract_categories_aux_nodup raws [] List.nodup_nil
  · intro n hn
    rcases extract_categories_aux_mem raws [] n hn with h | h
    · cases h
    · exact h

/-- C7 witness: `c7_category_names` at a concrete link list. -/
theorem c7_category_names_witness :
    (extract_categories ["Fiction 10".data]).Nodup ∧
    ∃ r ∈ ["Fiction 10".data], strip r ≠ [] ∧ strip r ≠ booksLabel ∧
      "Fiction".data = strip (stripTrailingCount (strip r)) :=
  ⟨(c7_category_names ["Fiction 10".data]).1,
   (c7_category_names ["Fiction 10".data]).2 "Fiction".data (by decide)⟩

/-- C7 counterexample: a navigation link reading `Books 12` survives the
root-label filter (checked before digit stripping) and is collected as
the name `Books`, so extracted names can equal the root label. -/
theorem c7_counterexample :
    booksLabel ∈ extract_categories ["Books 12".data] := by decide

/-- A key occurring in a (name, id) binding list has a `dictGet` value,
and that (key, value) pair is one of the bindings. -/
theorem dictGet_key_mem (m : List (List Char × Nat)) (k : List Char)
    (h : k ∈ m.map (fun p => p.1)) :
    ∃ v, dictGet m k = some v ∧ (k, v) ∈ m := by
  have h3 : (m.reverse.find? (fun q => decide (q.1 = k))).isSome := by
    rw [List.find?_isSome]
    rcases List.mem_map.mp h with ⟨p, hp, hk⟩
    exact ⟨p, List.mem_reverse.mpr hp, by simp [hk]⟩
  rcases Option.isSome_iff_exists.mp h3 with ⟨q, hq⟩
  have hqk : q.1 = k := by
    have := List.find?_some hq
    simpa using this
  have hqm : q ∈ m := List.mem_reverse.mp (List.mem_of_find?_eq_some hq)
  refine ⟨q.2, by simp [dictGet, hq], ?_⟩
  have hqm2 : (q.1, q.2) ∈ m := by simpa using hqm
  rwa [hqk] at hqm2

/-- C1 (amended): during book insert, a harvested category name that
hits the categories map keeps its id; a miss with a non-empty collected
categories list gets a uniformly chosen existing (name, id) binding of
the map; a miss with an empty collected list persists the book with a
NULL category reference; and a miss with a non-empty collected list but
an empty map raises. -/
theorem c1_category_fallback :
    (∀ (cmap : List (List Char × Nat)) (coll : Bool)
       (book : List Char × List Char) (pick : Nat) (c : Nat),
      dictGet cmap book.2 = some c → c ≠ 0 →
      insertBook cmap coll book pick
        = Except.ok { title := book.1, categoryId := some c }) ∧
    (∀ (cmap : List (List Char × Nat)) (book : List Char × List Char)
       (pick : Nat),
      dictGet cmap book.2 = none → cmap ≠ [] →
      ∃ name cid, insertBook cmap true book pick
          = Except.ok { title := book.1, categoryId := some cid } ∧
        (name, cid) ∈ cmap) ∧
    (∀ (cmap : List (List Char × Nat)) (book : List Char × List Char)
       (pick : Nat),
      dictGet cmap book.2 = none →
      insertBook cmap false book pick
        = Except.ok { title := book.1, categoryId := none }) ∧
    (∀ (book : List Char × List Char) (pick : Nat),
      insertBook [] true book pick = Except.error ()) := by
  refine ⟨?_, ?_, ?_, ?_⟩
  · intro cmap coll book pick c h hc0
    simp [insertBook, assignCategoryId, h, hc0]
  · intro cmap book pick h hne
    have hkeys : cmap.map (fun p => p.1) ≠ [] := by
      simpa [List.map_eq_nil_iff] using hne
    have hlen : 0 < (cmap.map (fun p => p.1)).length :=
      List.length_pos.mpr hkeys
    have hidx : pick % (cmap.map (fun p => p.1)).length
        < (cmap.map (fun p => p.1)).length := Nat.mod_lt _ hlen
    obtain ⟨key, hget⟩ :
        ∃ key, (cmap.map (fun p => p.1))[pick % (cmap.map (fun p => p.1)).length]?
          = some key := ⟨_, List.getElem?_eq_getElem hidx⟩
    have hkeymem : key ∈ cmap.map (fun p => p.1) := List.getElem?_mem hget
    obtain ⟨cid, hdg, hmem⟩ := dictGet_key_mem cmap key hkeymem
    refine ⟨key, cid, ?_, hmem⟩
    have hrc : randomChoice (cmap.map (fun p => p.1)) pick = some key := by
      unfold randomChoice
      split
    --(the nil arm is impossible, the cons arm is the indexed lookup)
      · next heq => exact absurd heq hkeys
      · exact hget
    simp [insertBook, assignCategoryId, h, hrc, hdg]
  · intro cmap book pick h
    simp [insertBook, assignCategoryId, h]
  · intro book pick
    simp [insertBook, assignCategoryId, dictGet, randomChoice]

/-- C1 witness: `c1_category_fallback` at a concrete map, one book whose
breadcrumb category hits, one whose category misses with a non-empty
collected list, and the empty-map raise. -/
theorem c1_category_fallback_witness :
    insertBook [("Fiction".data, 1), ("Poetry".data, 2)] true
        ("A Light in the Attic".data, "Poetry".data) 0
      = Except.ok { title := "A Light in the Attic".data, categoryId := some 2 } ∧
    (∃ name cid,
      insertBook [("Fiction".data, 1), ("Poetry".data, 2)] true
          ("Some Book".data, "Unknown".data) 3
        = Except.ok { title := "Some Book".data, categoryId := some cid } ∧
      (name, cid) ∈ [("Fiction".data, 1), ("Poetry".data, 2)]) ∧
    insertBook [] true ("Some Book".data, "Unknown".data) 0 = Except.error () :=
  ⟨c1_category_fallback.1 [("Fiction".data, 1), ("Poetry".data, 2)] true
      ("A Light in the Attic".data, "Poetry".data) 0 2 (by decide) (by decide),
   c1_category_fallback.2.1 [("Fiction".data, 1), ("Poetry".data, 2)]
      ("Some Book".data, "Unknown".data) 3 (by decide) (by decide),
   c1_category_fallback.2.2.2 ("Some Book".data, "Unknown".data) 0⟩

/-- C1 counterexample: with an empty collected categories list a book
whose harvested category matches nothing is persisted with an absent
(NULL) category reference instead of a random existing category. -/
theorem c1_counterexample :
    insertBook [] false ("Some Book".data, "Mystery".data) 0
      = Except.ok { title := "Some Book".data, categoryId := none } := by rfl

/-- C9: the conflict-ignoring category insert is idempotent on name: a
name already present leaves the table unchanged, in particular the row
count is unchanged. -/
theorem c9_idempotent_insert (table : List (Nat × List Char)) (name : List Char)
    (h : name ∈ table.map (fun p => p.2)) :
    insertCategoryIgnore table name = table ∧
    (insertCategoryIgnore table name).length = table.length := by
  have he : insertCategoryIgnore table name = table := by
    simp [insertCategoryIgnore, h]
  exact ⟨he, by rw [he]⟩

/-- C9 witness: re-inserting an existing category name. -/
theorem c9_idempotent_insert_witness :
    insertCategoryIgnore [(1, "Fiction".data)] "Fiction".data
        = [(1, "Fiction".data)] ∧
    (insertCategoryIgnore [(1, "Fiction".data)] "Fiction".data).length
        = [(1, "Fiction".data)].length :=
  c9_idempotent_insert [(1, "Fiction".data)] "Fiction".data (by decide)

/-- C10 (amended): a quote container lacking an author element but
having a text element records a quote attributed to the most recent
author name seen in an earlier container that had an author element;
when no author element was ever seen, the quote raises `NameError`,
aborting the quotes phase with the quotes collected so far; a container
with neither author nor text element changes nothing; and once aborted,
no further page is processed. -/
theorem c10_quote_author_attribution :
    (∀ (st : QState) (t : List Char) (tags : List (List Char)) (a : List Char),
      st.aborted = false → st.lastAuthor = some a →
      processContainer st { authorEl := none, textEl := some t, tagEls := tags }
        = { st with quotes := st.quotes ++
            [{ text := stripDq (strip t), author := a, tags := tags.map strip }] }) ∧
    (∀ (st : QState) (t : List Char) (tags : List (List Char)),
      st.aborted = false → st.lastAuthor = none →
      processContainer st { authorEl := none, textEl := some t, tagEls := tags }
        = { st with aborted := true }) ∧
    (∀ (st : QState) (tags : List (List Char)),
      st.aborted = false →
      processContainer st { authorEl := none, textEl := none, tagEls := tags }
        = st) ∧
    (∀ (st : QState) (pages : List (List QContainer)),
      st.aborted = true →
      pages.foldl (fun s p => if s.aborted then s else processQuotePage s p) st
        = st) := by
  refine ⟨?_, ?_, ?_, ?_⟩
  · intro st t tags a h1 h2
    simp [processContainer, h1, h2]
  · intro st t tags h1 h2
    simp [processContainer, h1, h2]
  · intro st tags h1
    simp [processContainer, h1]
  · intro st pages h1
    induction pages with
    | nil => rfl
    | cons p t ih => simp [List.foldl_cons, h1, ih]

/-- C10 witness: `c10_quote_author_attribution` at concrete states: a
stale-author attribution and a first-container `NameError`. -/
theorem c10_quote_author_attribution_witness :
    processContainer
        { lastAuthor := some "Albert Einstein".data, quotes := [], aborted := false }
        { authorEl := none, textEl := some "Truth is beauty".data,
          tagEls := ["truth".data] }
      = { lastAuthor := some "Albert Einstein".data,
          quotes := [{ text := stripDq (strip "Truth is beauty".data),
                       author := "Albert Einstein".data,
                       tags := ["truth".data].map strip }],
          aborted := false } ∧
    processContainer initQState
        { authorEl := none, textEl := some "Truth is beauty".data,
          tagEls := ["truth".data] }
      = { initQState with aborted := true } :=
  ⟨c10_quote_author_attribution.1
      { lastAuthor := some "Albert Einstein".data, quotes := [], aborted := false }
      "Truth is beauty".data ["truth".data] "Albert Einstein".data rfl rfl,
   c10_quote_author_attribution.2.1 initQState
      "Truth is beauty".data ["truth".data] rfl rfl⟩

/-- C10 counterexample: a first quote container with neither author nor
text element neither records a quote nor aborts the page — the run
continues and collects the following quote normally. -/
theorem c10_counterexample :
    (extract_quotes c10CexPages).aborted = false ∧
    (extract_quotes c10CexPages).quotes
      = [{ text := "Be yourself".data, author := "Jane Doe".data,
           tags := ["life".data] }] := by
  constructor
  · decide
  · decide

/-- Failing at or before the commit of a phase leaves the committed
state untouched. -/
theorem runPhaseAux_rollback :
    ∀ (rows : List (List Char)) (committed working : List (List Char)) (i : Nat),
      i ≤ rows.length →
      runPhaseAux committed working (phaseSteps rows) (some i) = committed := by
  intro rows
  induction rows with
  | nil =>
    intro committed working i hi
    have h0 : i = 0 := Nat.le_zero.mp hi
    subst h0
    rfl
  | cons r rs ih =>
    intro committed working i hi
    cases i with
    | zero => rfl
    | succ j =>
      have hj : j ≤ rs.length := by simpa using hi
      have hstep : runPhaseAux committed working (phaseSteps (r :: rs)) (some (j + 1))
          = runPhaseAux committed (working ++ [r]) (phaseSteps rs) (some j) := rfl
      rw [hstep, ih _ _ j hj]

/-- A phase that runs to completion commits exactly its rows on top of
the working copy. -/
theorem runPhaseAux_commit :
    ∀ (rows : List (List Char)) (committed working : List (List Char)),
      runPhaseAux committed working (phaseSteps rows) none = working ++ rows := by
  intro rows
  induction rows with
  | nil => intro c w; simp [phaseSteps, runPhaseAux]
  | cons r rs ih =>
    intro c w
    have hstep : runPhaseAux c w (phaseSteps (r :: rs)) none
        = runPhaseAux c (w ++ [r]) (phaseSteps rs) none := rfl
    rw [hstep, ih]
    simp

/-- C5 (amended): an exception raised at or before a phase's commit
rolls the phase back, leaving the database unchanged; a phase without
exception appends its rows; and since every phase swallows its own
exception, later phases still run and commit after an earlier phase
failed. -/
theorem c5_phase_transactions :
    (∀ (db rows : List (List Char)) (i : Nat), i ≤ rows.length →
      runPhase db (phaseSteps rows) (some i) = db) ∧
    (∀ (db rows : List (List Char)),
      runPhase db (phaseSteps rows) none = db ++ rows) ∧
    (∀ (db rows1 rows2 : List (List Char)) (i : Nat), i ≤ rows1.length →
      runPipeline db [(rows1, some i), (rows2, none)] = db ++ rows2) := by
  refine ⟨?_, ?_, ?_⟩
  · intro db rows i hi
    exact runPhaseAux_rollback rows db db i hi
  · intro db rows
    exact runPhaseAux_commit rows db db
  · intro db rows1 rows2 i hi
    show runPhase (runPhase db (phaseSteps rows1) (some i)) (phaseSteps rows2) none
        = db ++ rows2
    have h1 : runPhase db (phaseSteps rows1) (some i) = db :=
      runPhaseAux_rollback rows1 db db i hi
    rw [h1]
    exact runPhaseAux_commit rows2 db db

/-- C5 witness: `c5_phase_transactions` at a concrete two-phase run with
the first phase failing mid-insert. -/
theorem c5_phase_transactions_witness :
    runPhase ["Fiction".data] (phaseSteps ["Poetry".data]) (some 0)
        = ["Fiction".data] ∧
    runPipeline [] [(["Poetry".data], some 0), (["Travel".data], none)]
        = [] ++ ["Travel".data] :=
  ⟨c5_phase_transactions.1 ["Fiction".data] ["Poetry".data] 0 (by decide),
   c5_phase_transactions.2.2 [] ["Poetry".data] ["Travel".data] 0 (by decide)⟩

/-- C5 counterexample: an exception at the post-commit count query
(step 2, within the 3-step phase) is swallowed and rolled back, but the
committed insert of the phase survives — the database state is not
unchanged under every in-phase exception. -/
theorem c5_counterexample :
    2 < (phaseSteps ["Fiction".data]).length ∧
    runPhase [] (phaseSteps ["Fiction".data]) (some 2) = ["Fiction".data] := by
  exact ⟨by decide, rfl⟩

/-- Each visited page appends one page number, and the loop recurses
only while the test cap allows, so at most `6 - page` pages are added. -/
theorem extractBooksLoop_visited_bound :
    ∀ (k : Nat) (fetch : Nat → PageResult) (page : Nat)
      (acc : List (List Char)) (v : List Nat),
      6 - page ≤ k → page ≤ 5 →
      ((extractBooksLoop fetch page acc v).2).length ≤ v.length + (6 - page) := by
  intro k
  induction k with
  | zero => intro fetch page acc v hk hp; omega
  | succ k ih =>
    intro fetch page acc v hk hp
    rw [extractBooksLoop]
    cases hf : fetch page with
    | notFound => simp; omega
    | fetchErr => simp; omega
    | ok containers =>
      by_cases hempty : containers.isEmpty
      · simp [hempty]; omega
      · simp only [hempty, Bool.false_eq_true, if_false]
        by_cases hcap : page + 1 > 5
        · rw [dif_pos hcap]; simp; omega
        · rw [dif_neg hcap]
          have hrec := ih fetch (page + 1) (acc ++ containers.filterMap id)
            (v ++ [page]) (by omega) (by omega)
          simp only [List.length_append, List.length_cons, List.length_nil] at hrec ⊢
          omega

/-- C6: the pagination loop visits at most 5 pages (the test-mode cap),
a 404 page ends it without an error, an empty container list ends it
without an error, and any other exception ends it retaining the books
collected so far. -/
theorem c6_pagination_termination :
    (∀ fetch : Nat → PageResult, ((extract_books fetch).2).length ≤ 5) ∧
    (∀ (fetch : Nat → PageResult) (page : Nat) (acc : List (List Char))
       (v : List Nat), fetch page = PageResult.notFound →
      extractBooksLoop fetch page acc v = (acc, v ++ [page])) ∧
    (∀ (fetch : Nat → PageResult) (page : Nat) (acc : List (List Char))
       (v : List Nat), fetch page = PageResult.ok [] →
      extractBooksLoop fetch page acc v = (acc, v ++ [page])) ∧
    (∀ (fetch : Nat → PageResult) (page : Nat) (acc : List (List Char))
       (v : List Nat), fetch page = PageResult.fetchErr →
      extractBooksLoop fetch page acc v = (acc, v ++ [page])) := by
  refine ⟨?_, ?_, ?_, ?_⟩
  · intro fetch
    have h := extractBooksLoop_visited_bound 5 fetch 1 [] [] (by omega) (by omega)
    simpa using h
  · intro fetch page acc v h
    rw [extractBooksLoop, h]
  · intro fetch page acc v h
    rw [extractBooksLoop, h]
    rfl
  · intro fetch page acc v h
    rw [extractBooksLoop, h]

/-- C6 witness: `c6_pagination_termination` at concrete fetch oracles. -/
theorem c6_pagination_termination_witness :
    ((extract_books (fun _ => PageResult.ok [some "T1".data, none])).2).length ≤ 5 ∧
    extractBooksLoop (fun _ => PageResult.notFound) 3 ["T1".data] [1, 2]
        = (["T1".data], [1, 2] ++ [3]) ∧
    extractBooksLoop (fun _ => PageResult.fetchErr) 2 ["T1".data] [1]
        = (["T1".data], [1] ++ [2]) :=
  ⟨c6_pagination_termination.1 (fun _ => PageResult.ok [some "T1".data, none]),
   c6_pagination_termination.2.1 (fun _ => PageResult.notFound) 3 ["T1".data]
      [1, 2] rfl,
   c6_pagination_termination.2.2.2 (fun _ => PageResult.fetchErr) 2 ["T1".data]
      [1] rfl⟩

/-- An element fetched at an index is no longer in the list once that
index is erased, provided the list is duplicate-free. -/
theorem getElem?_not_mem_eraseIdx :
    ∀ (l : List (List Char)) (i : Nat) (x : List Char),
      l.Nodup → l[i]? = some x → x ∉ l.eraseIdx i := by
  intro l
  induction l with
  | nil => intro i x _ h; simp at h
  | cons a t ih =>
    intro i x hnd h
    have hnd2 := List.nodup_cons.mp hnd
    cases i with
    | zero =>
      have hax : a = x := by simpa using h
      subst hax
      simpa [List.eraseIdx_cons_zero] using hnd2.1
    | succ j =>
      have h2 : t[j]? = some x := by simpa using h
      have hx : x ∈ t := List.getElem?_mem h2
      have hxa : x ≠ a := fun he => hnd2.1 (he ▸ hx)
      have hrec := ih j x hnd2.2 h2
      rw [List.eraseIdx_cons_succ]
      intro hmem
      rcases List.mem_cons.mp hmem with he | hm
      · exact hxa he
      · exact hrec hm

/-- `pySample` returns exactly `k` elements when the pool suffices. -/
theorem pySample_length :
    ∀ (k : Nat) (pool : List (List Char)) (oracle : Nat → Nat),
      k ≤ pool.length → (pySample pool k oracle).length = k := by
  intro k
  induction k with
  | zero => intro pool oracle _; cases pool <;> rfl
  | succ k ih =>
    intro pool oracle h
    cases pool with
    | nil => simp at h
    | cons p ps =>
      have hlen : oracle k % (p :: ps).length < (p :: ps).length :=
        Nat.mod_lt _ (by simp)
      have hidx := List.length_eraseIdx_of_lt hlen
      have hk : k ≤ ((p :: ps).eraseIdx (oracle k % (p :: ps).length)).length := by
        rw [hidx]
        simp only [List.length_cons] at h ⊢
        omega
      rw [pySample, List.getElem?_eq_getElem hlen]
      simp only [List.length_cons] at hk ⊢
      rw [ih _ oracle hk]

/-- `pySample` only returns pool elements. -/
theorem pySample_subset :
    ∀ (k : Nat) (pool : List (List Char)) (oracle : Nat → Nat) (x : List Char),
      x ∈ pySample pool k oracle → x ∈ pool := by
  intro k
  induction k with
  | zero => intro pool oracle x h; cases pool <;> simp [pySample] at h
  | succ k ih =>
    intro pool oracle x h
    cases pool with
    | nil => simp [pySample] at h
    | cons p ps =>
      have hlen : oracle k % (p :: ps).length < (p :: ps).length :=
        Nat.mod_lt _ (by simp)
      rw [pySample, List.getElem?_eq_getElem hlen] at h
      rcases List.mem_cons.mp h with he | hm
      · exact he ▸ List.getElem_mem hlen
      · exact (List.eraseIdx_sublist (p :: ps) (oracle k % (p :: ps).length)).subset
          (ih _ oracle x hm)

/-- `pySample` of a duplicate-free pool is duplicate-free. -/
theorem pySample_nodup :
    ∀ (k : Nat) (pool : List (List Char)) (oracle : Nat → Nat),
      pool.Nodup → (pySample pool k oracle).Nodup := by
  intro k
  induction k with
  | zero => intro pool oracle _; cases pool <;> simp [pySample]
  | succ k ih =>
    intro pool oracle hnd
    cases pool with
    | nil => simp [pySample]
    | cons p ps =>
      have hlen : oracle k % (p :: ps).length < (p :: ps).length :=
        Nat.mod_lt _ (by simp)
      rw [pySample, List.getElem?_eq_getElem hlen]
      rw [List.nodup_cons]
      constructor
      · intro hmem
        have hx : (p :: ps)[oracle k % (p :: ps).length]
            ∈ (p :: ps).eraseIdx (oracle k % (p :: ps).length) :=
          pySample_subset k _ oracle _ hmem
        exact getElem?_not_mem_eraseIdx (p :: ps) _ _ hnd
          (List.getElem?_eq_getElem hlen) hx
      · exact ih _ oracle
          (List.Sublist.nodup (List.eraseIdx_sublist _ _) hnd)

/-- C8: for a non-empty duplicate-free authors list, the per-book
linking step selects between 1 and `min 3 (number of authors)` distinct
authors, all drawn from the list, and inserts one linking row per
sampled author. -/
theorem c8_author_sampling :
    ∀ (authors : List (List Char)) (r : Nat) (oracle : Nat → Nat) (bookId : Nat),
      authors ≠ [] → authors.Nodup →
      ∃ links, linkAuthorsForBook authors r oracle = some links ∧
        1 ≤ links.length ∧ links.length ≤ min 3 authors.length ∧
        links.length ≤ 3 ∧ links.Nodup ∧ (∀ a ∈ links, a ∈ authors) ∧
        (bookAuthorRows bookId links).length = links.length := by
  intro authors r oracle bookId hne hnd
  have hlen : 1 ≤ authors.length := by
    cases authors with
    | nil => exact absurd rfl hne
    | cons a t => simp
  have hminpos : 0 < min 3 authors.length := by omega
  have hmod : r % min 3 authors.length < min 3 authors.length :=
    Nat.mod_lt _ hminpos
  have hr : pyRandint 1 (min 3 authors.length) r
      = some (1 + r % min 3 authors.length) := by
    unfold pyRandint
    rw [if_neg (by omega)]
    simp [Nat.add_sub_cancel]
  have hk_pool : 1 + r % min 3 authors.length ≤ authors.length := by omega
  refine ⟨pySample authors (1 + r % min 3 authors.length) oracle, ?_, ?_, ?_, ?_,
    ?_, ?_, ?_⟩
  · unfold linkAuthorsForBook
    rw [hr]
    simp [pySampleChecked, hk_pool]
  · rw [pySample_length _ _ _ hk_pool]; omega
  · rw [pySample_length _ _ _ hk_pool]; omega
  · rw [pySample_length _ _ _ hk_pool]; omega
  · exact pySample_nodup _ _ _ hnd
  · intro a ha; exact pySample_subset _ _ _ _ ha
  · simp [bookAuthorRows]

/-- C8 witness: `c8_author_sampling` at a concrete authors list. -/
theorem c8_author_sampling_witness :
    ∃ links, linkAuthorsForBook ["Jane Doe".data, "John Roe".data, "Ann Poe".data]
        3 (fun _ => 1) = some links ∧
      1 ≤ links.length ∧
      links.length ≤ min 3 ["Jane Doe".data, "John Roe".data, "Ann Poe".data].length ∧
      links.length ≤ 3 ∧ links.Nodup ∧
      (∀ a ∈ links, a ∈ ["Jane Doe".data, "John Roe".data, "Ann Poe".data]) ∧
      (bookAuthorRows 7 links).length = links.length :=
  c8_author_sampling ["Jane Doe".data, "John Roe".data, "Ann Poe".data] 3
    (fun _ => 1) 7 (by decide) (by decide)

/-- C4: price parsing strips the currency characters and parses the
remainder as a decimal number; `£51.77` gives 51.77, `£0.00` gives 0.0,
and an absent price element defaults to 0.0. -/
theorem c4_price_parsing :
    extractPrice (some "£51.77".data) = some ((5177 : ℚ) / 100) ∧
    extractPrice (some "£0.00".data) = some 0 ∧
    extractPrice none = some 0 := by
  refine ⟨?_, ?_, ?_⟩
  · have h : parseFloatParts (stripCurrency "£51.77".data) = some (5177, 2) := by decide
    simp only [extractPrice, parseFloatQ, Option.getD_some, h, Option.map_some]
    norm_num
  · have h : parseFloatParts (stripCurrency "£0.00".data) = some (0, 2) := by decide
    simp only [extractPrice, parseFloatQ, Option.getD_some, h, Option.map_some]
    norm_num
  · have h : parseFloatParts (stripCurrency "£0.00".data) = some (0, 2) := by decide
    simp only [extractPrice, parseFloatQ, Option.getD_none, h, Option.map_some]
    norm_num

end BooksScraper
